import Mathlib

/-!
# Verification of the estimation-request protocol and notebook helpers

This development formalises, over a shallow embedding, the behaviour of the
`openff-toolkit` tutorial repository:

* the estimation-request lifecycle contract (`EvaluatorClient` /
  `EvaluatorServer` / `RequestHandle` / `ResultBatch`) described by the
  specification.  The protocol implementation itself is an external
  collaborator of the repository (only its call sites appear in the tutorial
  notebooks), so the definitions in that part are modelled from the
  specification text, as recorded in their doc comments; and

* the `fix_water_bonds` helper defined verbatim in the
  `using_smirnoff_in_amber_or_gromacs` example notebook, embedded directly
  from the source.
-/

namespace EstimationProtocol

/-- Property ids are opaque strings, unique within a dataset. -/
abbrev PropertyId := String

/-- Modelled from the spec: the per-property state machine
`Queued → {Estimated, Unsuccessful}` tracked by the server for every
submitted property. -/
inductive PropState where
  | queued
  | estimated
  | unsuccessful
deriving DecidableEq, Repr

/-- Modelled from the spec: an exception raised by the external execution
backend for an individual property, captured into the result batch's
exceptions list.  It references the property it concerns. -/
structure EvaluatorException where
  property_id : PropertyId
  message : String
deriving DecidableEq, Repr

/-- Modelled from the spec: the `ResultBatch` returned by a status query --
three sequences partitioning the submitted property ids, plus the list of
exceptions raised so far. -/
structure ResultBatch where
  queued_properties : List PropertyId
  estimated_properties : List PropertyId
  unsuccessful_properties : List PropertyId
  exceptions : List EvaluatorException
deriving DecidableEq, Repr

/-- Modelled from the spec: the server-side tracker of a single submitted
request -- each submitted property id paired with its current state, plus the
exceptions recorded so far. -/
structure RequestState where
  properties : List (PropertyId × PropState)
  exceptions : List EvaluatorException
deriving DecidableEq, Repr

/-- Modelled from the spec: the request state registered at submission time --
every submitted property id in the `Queued` state, and no exceptions. -/
def initialRequest (ids : List PropertyId) : RequestState :=
  { properties := ids.map fun p => (p, PropState.queued)
    exceptions := [] }

/-- Modelled from the spec: resolving one property to a terminal state.  Only
an entry currently in the `Queued` state moves; every other entry is left
unchanged. -/
def resolveProperty (props : List (PropertyId × PropState)) (p : PropertyId)
    (t : PropState) : List (PropertyId × PropState) :=
  props.map fun q => if q.1 = p ∧ q.2 = PropState.queued then (q.1, t) else q

/-- Modelled from the spec: a property that raises a framework-level exception
during external execution is recorded in `exceptions` and marked
`Unsuccessful`. -/
def RequestState.recordFailure (r : RequestState) (p : PropertyId)
    (e : EvaluatorException) : RequestState :=
  { properties := resolveProperty r.properties p PropState.unsuccessful
    exceptions := r.exceptions ++ [e] }

/-- Modelled from the spec: a property that is estimated successfully moves to
the `Estimated` terminal state. -/
def RequestState.recordEstimate (r : RequestState) (p : PropertyId) :
    RequestState :=
  { properties := resolveProperty r.properties p PropState.estimated
    exceptions := r.exceptions }

/-- Modelled from the spec: one unit of server-side progress performed by the
external compute backend.  The only transitions are `Queued → Estimated` and
`Queued → Unsuccessful` (the latter recording the raised exception); terminal
states are final. -/
inductive RequestStep : RequestState → RequestState → Prop where
  | estimate (p : PropertyId) (r : RequestState) :
      (p, PropState.queued) ∈ r.properties →
      RequestStep r (r.recordEstimate p)
  | fail (p : PropertyId) (e : EvaluatorException) (r : RequestState) :
      (p, PropState.queued) ∈ r.properties →
      e.property_id = p →
      RequestStep r (r.recordFailure p e)

/-- Modelled from the spec: the status snapshot of a request -- the current
partition of the submitted property ids across
{queued, estimated, unsuccessful}, plus the exceptions raised so far. -/
def RequestState.status (r : RequestState) : ResultBatch :=
  { queued_properties := r.properties.filterMap fun q =>
      if q.2 = PropState.queued then some q.1 else none
    estimated_properties := r.properties.filterMap fun q =>
      if q.2 = PropState.estimated then some q.1 else none
    unsuccessful_properties := r.properties.filterMap fun q =>
      if q.2 = PropState.unsuccessful then some q.1 else none
    exceptions := r.exceptions }

/-- Modelled from the spec: a `RequestHandle` is an opaque identifier plus the
server address, created by a successful submission and never mutated.  The
opaque request id is modelled by a natural number. -/
structure RequestHandle where
  request_id : Nat
  server_address : String
deriving DecidableEq, Repr

/-- Modelled from the spec: the status-tracking view of an `EvaluatorServer` --
its address, the next fresh request id, and the state of every request it has
accepted, keyed by request id. -/
structure EvaluatorServer where
  address : String
  next_id : Nat
  requests : List (Nat × RequestState)
deriving DecidableEq, Repr

/-- Modelled from the spec: `submit(request)` assigns a fresh request id,
registers all submitted property ids in the `Queued` state, and returns
immediately with the handle. -/
def EvaluatorServer.submit (srv : EvaluatorServer) (ids : List PropertyId) :
    RequestHandle × EvaluatorServer :=
  (⟨srv.next_id, srv.address⟩,
    { address := srv.address
      next_id := srv.next_id + 1
      requests := (srv.next_id, initialRequest ids) :: srv.requests })

/-- Modelled from the spec: `status(request_id)` returns the current partition
of property ids plus the exceptions raised so far; `none` when the request id
is unknown. -/
def EvaluatorServer.statusOf (srv : EvaluatorServer) (rid : Nat) :
    Option ResultBatch :=
  (srv.requests.lookup rid).map RequestState.status

/-- Modelled from the spec: the observable effect of one `status(request_id)`
call -- the returned snapshot together with the server state after the call,
which the specification requires to be untouched (idempotent and
side-effect-free). -/
def EvaluatorServer.statusQuery (srv : EvaluatorServer) (rid : Nat) :
    Option ResultBatch × EvaluatorServer :=
  (srv.statusOf rid, srv)

/-- Modelled from the spec: the protocol-layer error taxonomy --
`ConfigurationError` for invalid or unsupported options at submission time,
`ConnectionError` for transport failures. -/
inductive ProtocolError where
  | configurationError (message : String)
  | connectionError (message : String)
deriving DecidableEq, Repr

/-- Modelled from the spec: `RequestOptions` -- the ordered list of
calculation-layer names to attempt, and the per-layer, per-property-type
calculation schema overrides. -/
structure RequestOptions where
  calculation_layers : List String
  calculation_schemas : List (String × List (String × String))
deriving DecidableEq, Repr

/-- Modelled from the spec: the recognized calculation approaches a layer name
may refer to. -/
def recognizedLayers : List String :=
  ["SimulationLayer", "ReweightingLayer"]

/-- Modelled from the spec: submission-time validation of the request
options -- an empty `calculation_layers` list when simulation-based estimation
is required, or a layer name that is not a recognized calculation approach,
is a `ConfigurationError`. -/
def validateOptions (options : RequestOptions) : Option ProtocolError :=
  if options.calculation_layers = [] then
    some (ProtocolError.configurationError "calculation_layers is empty")
  else if options.calculation_layers.all fun l => recognizedLayers.contains l then
    none
  else
    some (ProtocolError.configurationError "unsupported calculation layer")

/-- Modelled from the spec: `EvaluatorClient.request_estimate(property_set,
force_field_source, options)` validates the options and either short-circuits
with `(None, ConfigurationError)` without contacting the server's compute
backend, or submits to the server and returns `(RequestHandle, None)`.  The
server state after the call is returned alongside. -/
def request_estimate (property_set : List PropertyId)
    (force_field_source : String) (options : RequestOptions)
    (srv : EvaluatorServer) :
    (Option RequestHandle × Option ProtocolError) × EvaluatorServer :=
  match validateOptions options with
  | some e => ((none, some e), srv)
  | none =>
      let hs := srv.submit property_set
      ((some hs.1, none), hs.2)

/-- Modelled from the spec: `request.results(synchronous, polling_interval)`
with `synchronous = false` returns the current snapshot immediately; with
`synchronous = true` it blocks, re-querying the server every
`polling_interval`, and returns the first snapshot whose queued list is
empty.  The blocking poll loop is modelled by its sequence of successive
snapshots. -/
def results (synchronous : Bool) (snapshots : List ResultBatch) :
    Option ResultBatch :=
  if synchronous then
    snapshots.find? fun b => b.queued_properties.isEmpty
  else
    snapshots.head?

/-- Modelled from the spec: the observable effect of one poll on a handle --
the snapshot (or a `ConnectionError` when the request id is unknown), together
with the handle and the server state after the call; the client only reads
snapshots, so both are required to come back unchanged. -/
def RequestHandle.resultsQuery (h : RequestHandle) (srv : EvaluatorServer) :
    (Option ResultBatch × Option ProtocolError) × RequestHandle ×
      EvaluatorServer :=
  match srv.statusOf h.request_id with
  | some b => ((some b, none), h, srv)
  | none =>
      ((none, some (ProtocolError.connectionError "unknown request id")), h,
        srv)

/-- A server is well formed when every registered request id is below the
fresh-id counter; this is what makes each newly assigned id fresh. -/
def EvaluatorServer.WellFormed (srv : EvaluatorServer) : Prop :=
  ∀ rid ∈ srv.requests.map Prod.fst, rid < srv.next_id

end EstimationProtocol

namespace WaterBonds

/-- The chemical element of an atom, as compared against
`openmm.app.element.hydrogen` in the notebook. -/
inductive Element where
  | hydrogen
  | oxygen
  | carbon
  | nitrogen
  | other (symbol : String)
deriving DecidableEq, Repr

/-- An atom of an OpenMM topology, reduced to the one field
`fix_water_bonds` inspects. -/
structure Atom where
  element : Element
deriving DecidableEq, Repr

/-- A bond of an OpenMM topology: its two endpoint atoms. -/
structure Bond where
  atom1 : Atom
  atom2 : Atom
deriving DecidableEq, Repr

/-- The predicate of the list comprehension in `fix_water_bonds`:
`bond.atom1.element == hydrogen and bond.atom2.element == hydrogen`. -/
def isHHBond (b : Bond) : Bool :=
  decide (b.atom1.element = Element.hydrogen) &&
    decide (b.atom2.element = Element.hydrogen)

/-- The indices collected by
`[index for (index, bond) in enumerate(topology.bonds()) if ...]`. -/
def bondsToDelete (bonds : List Bond) : List Nat :=
  bonds.enum.filterMap fun ib => if isHHBond ib.2 then some ib.1 else none

/-- Embedding of the notebook's `fix_water_bonds(topology)`: count the bonds,
collect the indices of the hydrogen-hydrogen bonds, reverse the index list,
pop each index in turn from the bond list, and report
`n_bonds_before - n_bonds_after` as the number of H-H bonds removed.  Returns
the remaining bond list and the reported count. -/
def fix_water_bonds (bonds : List Bond) : List Bond × Nat :=
  let n_bonds_before := bonds.length
  let remaining :=
    (bondsToDelete bonds).reverse.foldl (fun bs i => bs.eraseIdx i) bonds
  (remaining, n_bonds_before - remaining.length)

end WaterBonds

namespace EstimationProtocol

/-- C8: `status(request_id)` is idempotent and side-effect-free: a status
query leaves the server state unchanged, and a second query issued with no
intervening server-side progress returns an identical result batch. -/
theorem status_idempotent_side_effect_free (srv : EvaluatorServer)
    (rid : Nat) :
    (srv.statusQuery rid).2 = srv ∧
      ((srv.statusQuery rid).2.statusQuery rid).1 = (srv.statusQuery rid).1 :=
  ⟨rfl, rfl⟩

/-- C9: a `RequestHandle` is immutable: polling for results returns the
handle with its `request_id` and `server_address` fields unchanged, and does
not modify the server state. -/
theorem request_handle_immutable (h : RequestHandle)
    (srv : EvaluatorServer) :
    (h.resultsQuery srv).2.1.request_id = h.request_id ∧
      (h.resultsQuery srv).2.1.server_address = h.server_address ∧
      (h.resultsQuery srv).2.2 = srv := by
  unfold RequestHandle.resultsQuery
  cases srv.statusOf h.request_id <;> simp

/-- C4: every call to `request_estimate` populates exactly one of the two
return slots: either a handle with no error, or no handle with an error --
never both and never neither. -/
theorem request_estimate_exactly_one_slot (property_set : List PropertyId)
    (ff : String) (options : RequestOptions) (srv : EvaluatorServer) :
    ((request_estimate property_set ff options srv).1.1.isSome ∧
        (request_estimate property_set ff options srv).1.2 = none) ∨
      ((request_estimate property_set ff options srv).1.1 = none ∧
        (request_estimate property_set ff options srv).1.2.isSome) := by
  unfold request_estimate
  cases validateOptions options <;> simp

/-- C5: a submission whose options are invalid -- an empty
`calculation_layers` list, or a layer name that is not a recognized
calculation approach -- returns `(None, ConfigurationError)` synchronously
and leaves the server untouched (the compute backend is never contacted and
nothing is retried). -/
theorem invalid_options_configuration_error (property_set : List PropertyId)
    (ff : String) (options : RequestOptions) (srv : EvaluatorServer)
    (h : options.calculation_layers = [] ∨
      ∃ l ∈ options.calculation_layers, l ∉ recognizedLayers) :
    ∃ msg, request_estimate property_set ff options srv =
      ((none, some (ProtocolError.configurationError msg)), srv) := by
  unfold request_estimate validateOptions
  rcases h with h | ⟨l, hl, hlr⟩
  · exact ⟨"calculation_layers is empty", by simp [h]⟩
  · have hne : options.calculation_layers ≠ [] := by
      intro heq
      rw [heq] at hl
      simp at hl
    have hforall : ¬ ∀ x ∈ options.calculation_layers, x ∈ recognizedLayers :=
      fun hf => hlr (hf l hl)
    exact ⟨"unsupported calculation layer", by simp [hne, hforall]⟩

/-- Witness for C5 at a concrete invalid submission: an unrecognized layer
name yields `(None, ConfigurationError)` with the server unchanged. -/
theorem invalid_options_configuration_error_witness :
    ∃ msg,
      request_estimate ["A"] "openff-1.0.0.offxml" ⟨["BogusLayer"], []⟩
          ⟨"localhost", 0, []⟩ =
        ((none, some (ProtocolError.configurationError msg)),
          ⟨"localhost", 0, []⟩) :=
  invalid_options_configuration_error ["A"] "openff-1.0.0.offxml"
    ⟨["BogusLayer"], []⟩ ⟨"localhost", 0, []⟩
    (Or.inr ⟨"BogusLayer", by simp, by simp [recognizedLayers]⟩)

/-- C3: a synchronous `results` call never returns a snapshot in which some
property is still queued: whenever it returns a batch, that batch's
`queued_properties` is empty. -/
theorem results_synchronous_no_queued (snapshots : List ResultBatch)
    (b : ResultBatch) (h : results true snapshots = some b) :
    b.queued_properties = [] := by
  unfold results at h
  simp only [if_pos] at h
  have hfind := List.find?_some h
  simpa [List.isEmpty_iff] using hfind

/-- The status snapshot of a freshly registered request: every submitted id
is queued and nothing else is reported. -/
theorem status_initialRequest (ids : List PropertyId) :
    (initialRequest ids).status = ⟨ids, [], [], []⟩ := by
  unfold initialRequest RequestState.status
  simp [List.filterMap_map, Function.comp_def]

/-- C6: `submit` assigns a fresh request id -- one not registered before the
call -- and registers every submitted property id as queued, so that a status
query issued immediately afterwards returns exactly the submitted ids as
queued with the other two sequences and the exceptions empty. -/
theorem submit_fresh_and_initially_queued (srv : EvaluatorServer)
    (ids : List PropertyId) (hwf : srv.WellFormed) :
    (srv.submit ids).2.statusOf (srv.submit ids).1.request_id =
        some ⟨ids, [], [], []⟩ ∧
      (srv.submit ids).1.request_id ∉ srv.requests.map Prod.fst := by
  constructor
  · unfold EvaluatorServer.submit EvaluatorServer.statusOf
    simp [List.lookup, status_initialRequest]
  · intro hmem
    exact lt_irrefl srv.next_id (hwf srv.next_id hmem)

/-- Witness for C6: submitting the two-property dataset {"A", "B"} to a fresh
server yields an initial status of queued = ["A", "B"] with everything else
empty, under a fresh request id. -/
theorem submit_fresh_and_initially_queued_witness :
    ((⟨"localhost", 0, []⟩ : EvaluatorServer).submit ["A", "B"]).2.statusOf
        ((⟨"localhost", 0, []⟩ : EvaluatorServer).submit
          ["A", "B"]).1.request_id =
        some ⟨["A", "B"], [], [], []⟩ ∧
      ((⟨"localhost", 0, []⟩ : EvaluatorServer).submit
          ["A", "B"]).1.request_id ∉
        (⟨"localhost", 0, []⟩ : EvaluatorServer).requests.map Prod.fst :=
  submit_fresh_and_initially_queued ⟨"localhost", 0, []⟩ ["A", "B"]
    (by intro rid hmem; simp at hmem)

/-- Entries for other property ids are untouched by resolving one
property. -/
theorem resolveProperty_mem_ne (props : List (PropertyId × PropState))
    (p q : PropertyId) (t u : PropState) (hne : q ≠ p) :
    (q, u) ∈ resolveProperty props p t ↔ (q, u) ∈ props := by
  unfold resolveProperty
  constructor
  · intro hmem
    rcases List.mem_map.1 hmem with ⟨a, ha, heq⟩
    by_cases hc : a.1 = p ∧ a.2 = PropState.queued
    · rw [if_pos hc] at heq
      cases heq
      exact absurd hc.1 hne
    · rw [if_neg hc] at heq
      rwa [heq] at ha
  · intro hmem
    refine List.mem_map.2 ⟨(q, u), hmem, ?_⟩
    rw [if_neg]
    intro hc
    exact hne hc.1

/-- C7: recording the failure of one property marks that property
`Unsuccessful`, appends the raised exception (which references the failed
property) to the exceptions list, and leaves every sibling property's entries
exactly as they were -- one property's failure never aborts or changes the
outcome of the others. -/
theorem failure_recorded_and_isolated (r : RequestState) (p : PropertyId)
    (e : EvaluatorException) (hmem : (p, PropState.queued) ∈ r.properties)
    (hid : e.property_id = p) :
    (p, PropState.unsuccessful) ∈ (r.recordFailure p e).properties ∧
      (r.recordFailure p e).exceptions = r.exceptions ++ [e] ∧
      (∀ q t, q ≠ p →
        ((q, t) ∈ (r.recordFailure p e).properties ↔
          (q, t) ∈ r.properties)) ∧
      RequestStep r (r.recordFailure p e) := by
  refine ⟨?_, rfl, ?_, RequestStep.fail p e r hmem hid⟩
  · unfold RequestState.recordFailure resolveProperty
    exact List.mem_map.2 ⟨(p, PropState.queued), hmem, by simp⟩
  · intro q t hne
    exact resolveProperty_mem_ne r.properties p q PropState.unsuccessful t hne

/-- Witness for C7: in a concrete two-property request, property "B" failing
with an exception is marked unsuccessful and the exception recorded, while
property "A" keeps its entry. -/
theorem failure_recorded_and_isolated_witness :
    ("B", PropState.unsuccessful) ∈
        ((⟨[("A", PropState.queued), ("B", PropState.queued)],
            []⟩ : RequestState).recordFailure "B" ⟨"B", "boom"⟩).properties ∧
      ((⟨[("A", PropState.queued), ("B", PropState.queued)],
          []⟩ : RequestState).recordFailure "B" ⟨"B", "boom"⟩).exceptions =
        [] ++ [⟨"B", "boom"⟩] ∧
      (("A", PropState.queued) ∈
          ((⟨[("A", PropState.queued), ("B", PropState.queued)],
              []⟩ : RequestState).recordFailure "B"
            ⟨"B", "boom"⟩).properties ↔
        ("A", PropState.queued) ∈
          [("A", PropState.queued), ("B", PropState.queued)]) := by
  have h := failure_recorded_and_isolated
    ⟨[("A", PropState.queued), ("B", PropState.queued)], []⟩ "B" ⟨"B", "boom"⟩
    (by simp) rfl
  exact ⟨h.1, h.2.1, h.2.2.1 "A" PropState.queued (by simp)⟩

/-- Resolving a property never changes the sequence of registered property
ids. -/
theorem resolveProperty_map_fst (props : List (PropertyId × PropState))
    (p : PropertyId) (t : PropState) :
    (resolveProperty props p t).map Prod.fst = props.map Prod.fst := by
  unfold resolveProperty
  rw [List.map_map]
  apply List.map_congr_left
  intro a _
  by_cases hc : a.1 = p ∧ a.2 = PropState.queued <;> simp [hc]

/-- A single server-side step never changes the sequence of registered
property ids. -/
theorem step_map_fst (r r' : RequestState) (h : RequestStep r r') :
    r'.properties.map Prod.fst = r.properties.map Prod.fst := by
  cases h with
  | estimate p hp =>
      exact resolveProperty_map_fst r.properties p PropState.estimated
  | fail p e hp he =>
      exact resolveProperty_map_fst r.properties p PropState.unsuccessful

/-- Along any sequence of server-side steps, the sequence of registered
property ids is invariant. -/
theorem steps_map_fst (r r' : RequestState)
    (h : Relation.ReflTransGen RequestStep r r') :
    r'.properties.map Prod.fst = r.properties.map Prod.fst := by
  induction h with
  | refl => rfl
  | tail hprev hstep ih =>
      rename_i b c
      rw [step_map_fst b c hstep]
      exact ih

/-- An entry already in a terminal state is preserved by resolving any
property. -/
theorem resolveProperty_mem_terminal (props : List (PropertyId × PropState))
    (p : PropertyId) (t : PropState) (q : PropertyId) (u : PropState)
    (hu : u ≠ PropState.queued) (hmem : (q, u) ∈ props) :
    (q, u) ∈ resolveProperty props p t := by
  unfold resolveProperty
  refine List.mem_map.2 ⟨(q, u), hmem, ?_⟩
  rw [if_neg]
  intro hc
  exact hu hc.2

/-- An entry in a terminal state survives a single server-side step. -/
theorem step_mem_terminal (r r' : RequestState) (h : RequestStep r r')
    (p : PropertyId) (t : PropState) (ht : t ≠ PropState.queued)
    (hp : (p, t) ∈ r.properties) : (p, t) ∈ r'.properties := by
  cases h with
  | estimate q hq =>
      exact resolveProperty_mem_terminal r.properties q PropState.estimated
        p t ht hp
  | fail q e hq he =>
      exact resolveProperty_mem_terminal r.properties q
        PropState.unsuccessful p t ht hp

/-- An entry in a terminal state survives any sequence of server-side
steps. -/
theorem steps_mem_terminal (r r' : RequestState)
    (h : Relation.ReflTransGen RequestStep r r') (p : PropertyId)
    (t : PropState) (ht : t ≠ PropState.queued)
    (hp : (p, t) ∈ r.properties) : (p, t) ∈ r'.properties := by
  induction h with
  | refl => exact hp
  | tail hprev hstep ih =>
      rename_i b c
      exact step_mem_terminal b c hstep p t ht ih

/-- Membership in a status snapshot's queued sequence is membership of a
queued entry. -/
theorem mem_status_queued (r : RequestState) (p : PropertyId) :
    p ∈ r.status.queued_properties ↔
      (p, PropState.queued) ∈ r.properties := by
  unfold RequestState.status
  simp only [List.mem_filterMap]
  constructor
  · rintro ⟨q, hq, heq⟩
    by_cases hc : q.2 = PropState.queued
    · rw [if_pos hc] at heq
      cases heq
      have : q = (q.1, PropState.queued) := by
        cases q
        simp_all
      rwa [← this]
    · rw [if_neg hc] at heq
      cases heq
  · intro hmem
    exact ⟨(p, PropState.queued), hmem, by simp⟩

/-- Membership in a status snapshot's estimated sequence is membership of an
estimated entry. -/
theorem mem_status_estimated (r : RequestState) (p : PropertyId) :
    p ∈ r.status.estimated_properties ↔
      (p, PropState.estimated) ∈ r.properties := by
  unfold RequestState.status
  simp only [List.mem_filterMap]
  constructor
  · rintro ⟨q, hq, heq⟩
    by_cases hc : q.2 = PropState.estimated
    · rw [if_pos hc] at heq
      cases heq
      have : q = (q.1, PropState.estimated) := by
        cases q
        simp_all
      rwa [← this]
    · rw [if_neg hc] at heq
      cases heq
  · intro hmem
    exact ⟨(p, PropState.estimated), hmem, by simp⟩

/-- Membership in a status snapshot's unsuccessful sequence is membership of
an unsuccessful entry. -/
theorem mem_status_unsuccessful (r : RequestState) (p : PropertyId) :
    p ∈ r.status.unsuccessful_properties ↔
      (p, PropState.unsuccessful) ∈ r.properties := by
  unfold RequestState.status
  simp only [List.mem_filterMap]
  constructor
  · rintro ⟨q, hq, heq⟩
    by_cases hc : q.2 = PropState.unsuccessful
    · rw [if_pos hc] at heq
      cases heq
      have : q = (q.1, PropState.unsuccessful) := by
        cases q
        simp_all
      rwa [← this]
    · rw [if_neg hc] at heq
      cases heq
  · intro hmem
    exact ⟨(p, PropState.unsuccessful), hmem, by simp⟩

/-- In a request whose registered ids are distinct, a property carries a
single state. -/
theorem state_unique_of_nodup (r : RequestState)
    (hnd : (r.properties.map Prod.fst).Nodup) (p : PropertyId)
    (t u : PropState) (ht : (p, t) ∈ r.properties)
    (hu : (p, u) ∈ r.properties) : t = u := by
  have h := List.inj_on_of_nodup_map hnd ht hu rfl
  cases h
  rfl

/-- C2: status reporting is monotonic per property: once a snapshot reports a
property as estimated or as unsuccessful, every snapshot reachable by further
server-side steps reports it in the same state, and the property never
re-enters the queued sequence. -/
theorem status_monotonic (r r' : RequestState)
    (hsteps : Relation.ReflTransGen RequestStep r r')
    (hnd : (r.properties.map Prod.fst).Nodup) (p : PropertyId) :
    (p ∈ r.status.estimated_properties →
      p ∈ r'.status.estimated_properties ∧
        p ∉ r'.status.queued_properties) ∧
    (p ∈ r.status.unsuccessful_properties →
      p ∈ r'.status.unsuccessful_properties ∧
        p ∉ r'.status.queued_properties) := by
  have hnd' : (r'.properties.map Prod.fst).Nodup := by
    rw [steps_map_fst r r' hsteps]
    exact hnd
  constructor
  · intro hmem
    rw [mem_status_estimated] at hmem
    have hkeep := steps_mem_terminal r r' hsteps p PropState.estimated
      (by simp) hmem
    refine ⟨(mem_status_estimated r' p).2 hkeep, ?_⟩
    intro hq
    rw [mem_status_queued] at hq
    exact absurd
      (state_unique_of_nodup r' hnd' p PropState.estimated PropState.queued
        hkeep hq)
      (by simp)
  · intro hmem
    rw [mem_status_unsuccessful] at hmem
    have hkeep := steps_mem_terminal r r' hsteps p PropState.unsuccessful
      (by simp) hmem
    refine ⟨(mem_status_unsuccessful r' p).2 hkeep, ?_⟩
    intro hq
    rw [mem_status_queued] at hq
    exact absurd
      (state_unique_of_nodup r' hnd' p PropState.unsuccessful
        PropState.queued hkeep hq)
      (by simp)

/-- Concatenating the three sequences of a status snapshot is a permutation
of the registered property ids: every entry lands in exactly one sequence
according to its state. -/
theorem status_concat_perm (props : List (PropertyId × PropState)) :
    ((props.filterMap fun q =>
        if q.2 = PropState.queued then some q.1 else none) ++
      (props.filterMap fun q =>
        if q.2 = PropState.estimated then some q.1 else none) ++
      (props.filterMap fun q =>
        if q.2 = PropState.unsuccessful then some q.1 else none)).Perm
      (props.map Prod.fst) := by
  induction props with
  | nil => simp
  | cons a props ih =>
      rcases a with ⟨p, s⟩
      cases s with
      | queued =>
          simpa using ih.cons p
      | estimated =>
          simp only [List.filterMap_cons, List.map_cons, reduceCtorEq,
            if_true, if_false, reduceIte, List.append_assoc]
          refine List.Perm.trans List.perm_middle ?_
          simpa using ih.cons p
      | unsuccessful =>
          simp only [List.filterMap_cons, List.map_cons, reduceCtorEq,
            if_true, if_false, reduceIte]
          refine List.Perm.trans List.perm_middle ?_
          exact ih.cons p

/-- C1: for a request submitted with distinct property ids, every reachable
status snapshot partitions exactly the submitted ids: the concatenation of
its queued, estimated and unsuccessful sequences is a permutation of the
submitted ids, and contains no duplicate, so no id is lost, duplicated, or
reported in more than one sequence. -/
theorem batch_partitions_submitted_ids (ids : List PropertyId)
    (r : RequestState) (hnd : ids.Nodup)
    (hsteps : Relation.ReflTransGen RequestStep (initialRequest ids) r) :
    ((r.status.queued_properties ++ r.status.estimated_properties ++
        r.status.unsuccessful_properties).Perm ids ∧
      (r.status.queued_properties ++ r.status.estimated_properties ++
        r.status.unsuccessful_properties).Nodup) := by
  have hfst : r.properties.map Prod.fst = ids := by
    rw [steps_map_fst (initialRequest ids) r hsteps]
    unfold initialRequest
    simp [Function.comp_def]
  have hperm :
      (r.status.queued_properties ++ r.status.estimated_properties ++
        r.status.unsuccessful_properties).Perm ids := by
    have h := status_concat_perm r.properties
    rw [hfst] at h
    exact h
  exact ⟨hperm, hperm.nodup_iff.2 hnd⟩

/-- Witness for C1: the initial snapshot of a request over the distinct ids
{"A", "B"} partitions exactly those ids. -/
theorem batch_partitions_submitted_ids_witness :
    (((initialRequest ["A", "B"]).status.queued_properties ++
        (initialRequest ["A", "B"]).status.estimated_properties ++
        (initialRequest ["A", "B"]).status.unsuccessful_properties).Perm
      ["A", "B"] ∧
      ((initialRequest ["A", "B"]).status.queued_properties ++
        (initialRequest ["A", "B"]).status.estimated_properties ++
        (initialRequest ["A", "B"]).status.unsuccessful_properties).Nodup) :=
  batch_partitions_submitted_ids ["A", "B"] (initialRequest ["A", "B"])
    (by decide) Relation.ReflTransGen.refl

/-- Witness for C2 at a concrete request: property "A", reported estimated,
is still reported estimated and not queued after no further progress. -/
theorem status_monotonic_witness :
    ("A" ∈
        (⟨[("A", PropState.estimated), ("B", PropState.queued)],
          []⟩ : RequestState).status.estimated_properties ∧
      "A" ∉
        (⟨[("A", PropState.estimated), ("B", PropState.queued)],
          []⟩ : RequestState).status.queued_properties) :=
  (status_monotonic
      ⟨[("A", PropState.estimated), ("B", PropState.queued)], []⟩
      ⟨[("A", PropState.estimated), ("B", PropState.queued)], []⟩
      Relation.ReflTransGen.refl (by decide) "A").1 (by decide)

/-- Witness for C3: on a concrete poll sequence whose first snapshot still
has a queued property, the synchronous call returns the later, fully
resolved snapshot, whose queued list is empty. -/
theorem results_synchronous_no_queued_witness :
    results true
        [⟨["A"], [], [], []⟩, ⟨[], ["A"], [], []⟩] =
      some ⟨[], ["A"], [], []⟩ ∧
    (⟨[], ["A"], [], []⟩ : ResultBatch).queued_properties = [] :=
  ⟨by decide,
    results_synchronous_no_queued
      [⟨["A"], [], [], []⟩, ⟨[], ["A"], [], []⟩] ⟨[], ["A"], [], []⟩
      (by decide)⟩

end EstimationProtocol

namespace WaterBonds

/-- Unfolding of the index collection at a cons cell: the head contributes
index 0 exactly when it is a hydrogen-hydrogen bond, and every index from the
tail is shifted up by one. -/
theorem bondsToDelete_cons (b : Bond) (bonds : List Bond) :
    bondsToDelete (b :: bonds) =
      (if isHHBond b then [0] else []) ++
        (bondsToDelete bonds).map (· + 1) := by
  unfold bondsToDelete
  rw [List.enum_cons, List.filterMap_cons, List.enumFrom_eq_map_enum,
    List.filterMap_map]
  have hmap :
      (List.enum bonds).filterMap
          ((fun ib => if isHHBond ib.2 then some ib.1 else none) ∘
            Prod.map (fun x => x + 1) id) =
        ((List.enum bonds).filterMap fun ib =>
          if isHHBond ib.2 then some ib.1 else none).map (· + 1) := by
    rw [List.map_filterMap]
    apply List.filterMap_congr
    intro a _
    rcases a with ⟨i, bd⟩
    by_cases hb : isHHBond bd <;> simp [hb, Prod.map]
  by_cases hb : isHHBond b <;> simp [hb, hmap]

/-- Popping a shifted index from a list with an extra head leaves the head in
place and pops the unshifted index from the tail. -/
theorem foldl_eraseIdx_map_succ (idxs : List Nat) (a : Bond)
    (l : List Bond) :
    (idxs.map (· + 1)).foldl (fun bs i => bs.eraseIdx i) (a :: l) =
      a :: idxs.foldl (fun bs i => bs.eraseIdx i) l := by
  induction idxs generalizing l with
  | nil => rfl
  | cons i idxs ih =>
      simp only [List.map_cons, List.foldl_cons, List.eraseIdx_cons_succ]
      exact ih (l.eraseIdx i)

/-- Popping the collected hydrogen-hydrogen indices in descending order is
exactly filtering the hydrogen-hydrogen bonds out of the bond list. -/
theorem foldl_eraseIdx_filter (bonds : List Bond) :
    (bondsToDelete bonds).reverse.foldl (fun bs i => bs.eraseIdx i) bonds =
      bonds.filter fun b => !(isHHBond b) := by
  induction bonds with
  | nil => rfl
  | cons b bonds ih =>
      rw [bondsToDelete_cons]
      by_cases hb : isHHBond b
      · rw [if_pos hb, List.reverse_append, List.foldl_append,
          ← List.map_reverse, foldl_eraseIdx_map_succ, ih]
        simp [List.filter_cons, hb]
      · rw [if_neg hb]
        simp only [List.nil_append]
        rw [← List.map_reverse, foldl_eraseIdx_map_succ, ih]
        simp [List.filter_cons, hb]

/-- The bonds kept and the bonds dropped together account for the whole bond
list. -/
theorem length_filter_add_length_filter (l : List Bond) :
    (l.filter fun b => !(isHHBond b)).length +
      (l.filter isHHBond).length = l.length := by
  induction l with
  | nil => rfl
  | cons b l ih =>
      by_cases hb : isHHBond b <;> simp [List.filter_cons, hb, ← ih] <;>
        omega

/-- C10: `fix_water_bonds` removes from the bond list exactly the bonds whose
two endpoint atoms are both hydrogen, keeping every other bond in its
original relative order, and the count it reports equals the number of
hydrogen-hydrogen bonds present before the call. -/
theorem fix_water_bonds_correct (bonds : List Bond) :
    fix_water_bonds bonds =
      (bonds.filter fun b => !(isHHBond b),
        (bonds.filter isHHBond).length) := by
  unfold fix_water_bonds
  rw [foldl_eraseIdx_filter]
  have h := length_filter_add_length_filter bonds
  refine Prod.ext rfl ?_
  simp only []
  omega

end WaterBonds
